import Mathlib

/-!
Verification of the ecPoint-PyCal case-iteration and computation-graph engine.

This file is a shallow embedding of the repository sources
src/core/computations/utils.py (numeric operator library) and
src/core/processor/__init__.py (case runner, lead-time resolver,
computation partitioner, pairing and masking logic), with theorems that
settle the frozen specification claims against the embedding.

Modelling conventions: numpy float arrays become lists of rationals,
evaluated elementwise exactly as the source does; Python ints become Nat
or Int; gridded forecast fields and the external loaders and the Computer
dispatch table (whose files are not part of src/) are abstracted as an
environment record, following the collaborator contracts in section 6 of
the specification.
-/

namespace ECP

/-! ## Numeric operator library (src/core/computations/utils.py) -/

/-- Elementwise translation of one point of compute_local_solar_time
(src/core/computations/utils.py lines 63-90).  Every numpy whole-array
operation in the source acts independently per point, with boolean masks
entering as 0/1 indicator factors, so the array function is the map of
this scalar function.  Each let line mirrors one source line. -/
def lstPoint (hour lon : ℚ) : ℚ :=
  let temp_lonPos := lon * (if lon ≥ 0 then 1 else 0)
  let lstPos := hour + temp_lonPos / 15
  let lstPos := lstPos * (if temp_lonPos ≠ 0 then 1 else 0)
  let temp_lstPosMore24 := (lstPos * (if lstPos ≥ 24 then 1 else 0)) - 24
  let temp_lstPosMore24 := temp_lstPosMore24 * (if temp_lstPosMore24 > 0 then 1 else 0)
  let tempPos := lstPos * (if lstPos < 24 then 1 else 0) + temp_lstPosMore24
  let temp_lonNeg := lon * (if lon < 0 then 1 else 0)
  let lstNeg := hour - |temp_lonNeg / 15|
  let lstNeg := lstNeg * (if temp_lonNeg ≠ 0 then 1 else 0)
  let temp_lstNegLess0 := lstNeg * (if lstNeg < 0 then 1 else 0) + 24
  let temp_lstNegLess0 := temp_lstNegLess0 * (if temp_lstNegLess0 ≠ 24 then 1 else 0)
  let tempNeg := lstNeg * (if lstNeg > 0 then 1 else 0) + temp_lstNegLess0
  tempPos + tempNeg

/-- Local-solar-time operator over an array of longitudes, as in
compute_local_solar_time: the numpy array pipeline applied elementwise. -/
def compute_local_solar_time (longitudes : List ℚ) (hour : ℚ) : List ℚ :=
  longitudes.map (lstPoint hour)

/-- Claim-side statement of the local-solar-time behaviour per point: for
positive longitude, issue hour plus longitude/15, reduced by 24 when the
sum reaches 24; for negative longitude, issue hour minus the absolute
longitude over 15, increased by 24 when negative; exactly-zero longitude
contributes zero. -/
def lstSpecPoint (hour lon : ℚ) : ℚ :=
  if lon = 0 then 0
  else if lon ≥ 0 then
    (if hour + lon / 15 ≥ 24 then hour + lon / 15 - 24 else hour + lon / 15)
  else
    (if hour - |lon| / 15 < 0 then hour - |lon| / 15 + 24 else hour - |lon| / 15)

/-- Weighted-average operator (compute_weighted_average_field, lines 15-28).
The source indexes args[0] and args[-1], which here become headD and
getLastD; callers never pass an empty list (the 0 default is unreachable).
The reduce with an initial value becomes a foldl, and the total weight
len(mid) * 1 + 2 * 0.5 is kept in source form. -/
def compute_weighted_average_field (args : List ℚ) : ℚ :=
  let weighted_sum_of_first_and_last_items := args.headD 0 * (1/2) + args.getLastD 0 * (1/2)
  let items_excluding_first_and_last := (args.drop 1).dropLast
  if items_excluding_first_and_last ≠ [] then
    (items_excluding_first_and_last.foldl (· + ·) weighted_sum_of_first_and_last_items) /
      ((items_excluding_first_and_last.length : ℚ) * 1 + 2 * (1/2))
  else
    weighted_sum_of_first_and_last_items

/-- Ratio operator (compute_ratio_field, line 47-48): dividend / divisor.
In the derived-computation branch of the case runner it is applied to
numpy value arrays, so division is elementwise. -/
def compute_ratio_field (dividend divisor : List ℚ) : List ℚ :=
  List.zipWith (fun a b => a / b) dividend divisor

/-! ## Lead-time resolver (src/core/processor/__init__.py lines 267-302) -/

/-- Python list(range(start, stop, step)) for a positive step. -/
def pyRange (start stop step : ℕ) : List ℕ :=
  (List.range ((stop - start + step - 1) / step)).map (fun i => start + i * step)

/-- Lead-time resolver: the step-generation block of the case runner
(lines 268-302), keyed by the computation kind tag exactly as the source
string-matches on computation.field. -/
def resolve_steps (is_accumulated : Bool) ( field : String)
    (step_s acc sampling_interval : ℕ) : List ℕ :=
  if ¬ is_accumulated then [step_s]
  else if field = "24H_SOLAR_RADIATION" then
    if acc = 24 then [step_s, step_s + acc]
    else if step_s + acc ≤ 24 then [0, 24]
    else [step_s + acc - 24, step_s + acc]
  else if field = "WEIGHTED_AVERAGE_FIELD" ∨ field = "AVERAGE_FIELD" then
    pyRange step_s (step_s + acc + 1) sampling_interval
  else if field = "MAXIMUM_FIELD" ∨ field = "MINIMUM_FIELD" then
    pyRange (step_s + sampling_interval) (step_s + acc + 1) sampling_interval
  else [step_s, step_s + acc]

/-! ## Computation descriptors and the partitioner (lines 222-254) -/

/-- Computation descriptor: the claim-relevant fields of the dict-like
configuration objects.  The inputs list holds the input field codes (the
source only ever reads input["code"]).  fullname, units and other
presentation-only attributes are omitted. -/
structure Computation where
  shortname : String
  field : String
  inputs : List String
  isPostProcessed : Bool
  mulScale : ℚ
  addScale : ℚ
deriving DecidableEq

/-- Reference test (lines 223-227): a computation is the predictand
reference when it has a single input whose code equals the predictand
code.  The source recomputes this each case into a mutable attribute; the
value only depends on immutable configuration, so it is a pure function
here. -/
def is_reference (predictand_code : String) (c : Computation) : Bool :=
  match c.inputs with
  | [code] => code = predictand_code
  | _ => false

/-- Derived-computation test (lines 234-240): some input code outside the
raw predictor codes, exposed in the output, and not local-solar-time. -/
def derivedPred (base_fields : List String) (c : Computation) : Bool :=
  (c.inputs.any (fun code => !(base_fields.contains code)))
    && c.isPostProcessed && (c.field != "LOCAL_SOLAR_TIME")

/-- Derived computations in configured order (lines 234-240). -/
def derived_computations (computations : List Computation)
    (base_fields : List String) : List Computation :=
  computations.filter (derivedPred base_fields)

/-- CPython sorted(l, key=k, reverse=True) for a boolean key is a stable
descending sort: the elements with key true in original order, followed by
the elements with key false in original order.  This definition models
that behaviour for line 245-254. -/
def stable_sorted_ref_first (predictand_code : String)
    (l : List Computation) : List Computation :=
  l.filter (fun c => is_reference predictand_code c)
    ++ l.filter (fun c => !(is_reference predictand_code c))

/-- Base computations (lines 245-254): configured computations that are
neither derived nor local-solar-time, reordered so reference computations
come first (stable boolean sort, reverse=True). -/
def base_computations (computations : List Computation)
    (base_fields : List String) (predictand_code : String) : List Computation :=
  stable_sorted_ref_first predictand_code
    (computations.filter (fun c => !(derivedPred base_fields c) && (c.field != "LOCAL_SOLAR_TIME")))

/-! ## Data model for the case runner -/

/-- Observation point: one (latitude, longitude, value) triple of a
geopoints file.  Modelled from the spec: the observation-set abstraction
of section 3 (its loader file is not under src/). -/
structure Point where
  lat : ℚ
  lon : ℚ
  val : ℚ
deriving DecidableEq

/-- Gridded forecast field, represented by its nearest-gridpoint lookup.
Modelled from the spec: section 4.6 states the projection assigns one
value per observation point, each independent of the other observations,
so a field is its per-point lookup function (the Fieldset decoder is not
under src/). -/
def Fieldset : Type := Point → ℚ

/-- Nearest-gridpoint projection of a field onto an observation set:
one projected value per observation point, in observation order. -/
def nearest_gridpoint (f : Fieldset) (obs : List Point) : List ℚ :=
  obs.map f

/-- Predictand descriptor (claim-relevant fields of config.predictand). -/
structure Predictand where
  code : String
  is_accumulated : Bool
  accumulation : ℕ
  min_value : ℚ
  error : String
deriving DecidableEq

/-- Predictors descriptor (claim-relevant fields of config.predictors). -/
structure Predictors where
  codes : List String
  sampling_interval : ℕ
deriving DecidableEq

/-- Run parameters (claim-relevant fields of config.parameters; paths,
output format and the scheduler intervals feed only I/O and the external
scheduler, which is not under src/). -/
structure Parameters where
  date_start : ℤ
  date_end : ℤ
deriving DecidableEq

/-- Run configuration. -/
structure Config where
  parameters : Parameters
  predictand : Predictand
  predictors : Predictors
  computations : List Computation
deriving DecidableEq

/-- Scaled minimum retained value (lines 103-105): the predictand minimum
shifted and scaled by the scale attributes of the first configured
computation.  An empty computation list makes the source crash before any
case runs, so the 0 default is unreachable. -/
def predictand_min_value (cfg : Config) : ℚ :=
  match cfg.computations with
  | c :: _ => (cfg.predictand.min_value + c.addScale) * c.mulScale
  | [] => 0

/-- Scheduler case: issue date (as a day number), issue hour, lead time
in hours, and the 1-based case index. -/
structure Case where
  date : ℤ
  time : ℕ
  step_s : ℕ
  idx : ℕ
deriving DecidableEq

/-- Forecast dedup key (lines 124-131): the content of the forecast
description string, namely issue date, issue hour, the lead time, and for
an accumulated predictand also the window end.  Distinct keys give
distinct strings and conversely, so the string is modelled by its data. -/
structure FKey where
  date : ℤ
  time : ℕ
  stepS : ℕ
  stepEnd : Option ℕ
deriving DecidableEq

/-- Dedup key of a case (the forecast f-string of lines 124-129). -/
def forecastKey (cfg : Config) (c : Case) : FKey :=
  { date := c.date, time := c.time, stepS := c.step_s,
    stepEnd := if cfg.predictand.is_accumulated
               then some (c.step_s + cfg.predictand.accumulation) else none }

/-- Lookup in the counter_used_FC map, modelled as an association list
where the most recent insertion is found first (dict semantics). -/
def lookupKey (counter : List (FKey × ℕ)) (key : FKey) : Option ℕ :=
  (counter.find? (fun p => decide (p.1 = key))).map (fun p => p.2)

/-- Validity hour HourVF_num (lines 172-179): hour of issue time plus
lead time plus accumulation, wrapped over days. -/
def validHour (cfg : Config) (c : Case) : ℕ :=
  (c.time + c.step_s + cfg.predictand.accumulation) % 24

/-- Validity date DateVF (lines 172-177): issue date advanced by the full
days contained in issue hour plus lead time plus accumulation. -/
def validDate (cfg : Config) (c : Case) : ℤ :=
  c.date + ((c.time + c.step_s + cfg.predictand.accumulation) / 24 : ℕ)

/-! ## Pairing and masking engine -/

/-- Retention mask (line 344): elementwise geopoints >= min_value. -/
def buildMask (geopoints : List ℚ) (min_value : ℚ) : List Bool :=
  geopoints.map (fun v => decide (v ≥ min_value))

/-- Boolean-mask filtering (the geopoints filter method): keep the
entries at mask-true positions, preserving order.  Modelled from the
spec: section 4.6 defines apply(mask, set) as the subsequence at
mask-true positions (the geopoints loader is not under src/). -/
def filterByMask {α : Type} (mask : List Bool) (xs : List α) : List α :=
  (mask.zip xs).filterMap (fun p => if p.1 then some p.2 else none)

/-- Rounding of a rational to an integer, ties to even: the behaviour of
numpy around on exactly representable values. -/
def roundHalfEven (x : ℚ) : ℤ :=
  let f := ⌊x⌋
  if x - f < 1/2 then f
  else if x - f > 1/2 then f + 1
  else if Even f then f else f + 1

/-- np.around(x, decimals=3) on a scalar. -/
def roundQ3 (x : ℚ) : ℚ :=
  (roundHalfEven (1000 * x) : ℚ) / 1000

/-- np.around(xs, decimals=3) on an array. -/
def roundL (xs : List ℚ) : List ℚ :=
  xs.map roundQ3

/-! ## Environment: external collaborators (section 6 of the spec) -/

/-- External collaborators of one run.  Modelled from the spec: the
observation loader, the forecast field loader, and the Computer operator
dispatch live in files that are not under src/ (core/loaders/geopoints,
core/loaders/fieldset, core/computations/models), so they are abstracted
by this record following the contracts of section 6.  readObs returns
none when the observation file is absent or unreadable; readFC likewise
for a forecast file, keyed by case, predictor code and step; compute is
the Computer dispatch applied to loaded fieldsets; ratioNonAcc is the
grid-level ratio-then-project branch used for a non-accumulated
predictand (line 407-410). -/
structure Env where
  readObs : Case → Option (List Point)
  readFC : Case → String → ℕ → Option Fieldset
  compute : String → List Fieldset → Fieldset
  ratioNonAcc : Fieldset → Fieldset → List Point → List ℚ

/-- Sequential read of the forecast files for one computation
(lines 304-320): stop at the first missing or unreadable file. -/
def readSteps (env : Env) (c : Case) (code : String) : List ℕ → Option (List Fieldset)
  | [] => some []
  | s :: rest =>
    match env.readFC c code s with
    | none => none
    | some f => (readSteps env c code rest).map (fun fs => f :: fs)

/-! ## Case runner (lines 110-496) -/

/-- State of the base-computation loop: the per-case cache (most recent
insertion first, dict semantics), the accumulated computations_result
column list, and the mask and ref_geopoints variables, which Python
leaves unbound (none) until the reference branch assigns them. -/
structure LoopSt where
  cache : List (String × Fieldset)
  results : List (String × List ℚ)
  mask : Option (List Bool)
  refGeo : Option (List ℚ)

/-- Initial loop state (lines 256-258). -/
def initLoop : LoopSt := ⟨[], [], none, none⟩

/-- Outcome of the base-computation loop: completion, skip of the case
because a forecast file could not be read, skip because the reference
retained no observations, or a Python runtime error (unbound mask,
empty input list). -/
inductive BaseOut where
  | ok (st : LoopSt)
  | skipFC
  | skipRetention
  | crash

/-- Base-computation loop (lines 260-381), one iteration per base
computation in partitioner order.  Reading failures set skip and break;
the reference branch builds the retention mask and filters by it when
the predictand is accumulated; non-reference computations filter by the
mask variable as currently bound, crashing if it was never assigned. -/
def baseLoop (cfg : Config) (env : Env) (c : Case) (obs : List Point) :
    List Computation → LoopSt → BaseOut
  | [], st => .ok st
  | comp :: rest, st =>
    match comp.inputs with
    | [] => .crash
    | predictor_code :: _ =>
      match readSteps env c predictor_code
          (resolve_steps cfg.predictand.is_accumulated comp.field c.step_s
            cfg.predictand.accumulation cfg.predictors.sampling_interval) with
      | none => .skipFC
      | some computation_steps =>
        let computed_value := env.compute comp.field computation_steps
        let st1 := { st with cache := (comp.shortname, computed_value) :: st.cache }
        if comp.isPostProcessed = false then baseLoop cfg env c obs rest st1
        else
          let geopoints := nearest_gridpoint computed_value obs
          if is_reference cfg.predictand.code comp then
            if cfg.predictand.is_accumulated then
              let mask := buildMask geopoints (predictand_min_value cfg)
              let ref_geopoints := filterByMask mask geopoints
              if ref_geopoints = [] then .skipRetention
              else baseLoop cfg env c obs rest
                { st1 with
                  mask := some mask
                  refGeo := some ref_geopoints
                  results := st1.results ++ [(comp.shortname, roundL ref_geopoints)] }
            else
              if geopoints = [] then .skipRetention
              else baseLoop cfg env c obs rest
                { st1 with
                  refGeo := some geopoints
                  results := st1.results ++ [(comp.shortname, roundL geopoints)] }
          else
            if cfg.predictand.is_accumulated then
              match st1.mask with
              | none => .crash
              | some mask => baseLoop cfg env c obs rest
                { st1 with results :=
                    st1.results ++ [(comp.shortname, roundL (filterByMask mask geopoints))] }
            else baseLoop cfg env c obs rest
              { st1 with results := st1.results ++ [(comp.shortname, roundL geopoints)] }

/-- Cache lookup computations_cache[code] (lines 388-391): the source
looks derived inputs up by code, and cache keys are short names. -/
def lookupCache (cache : List (String × Fieldset)) (code : String) : Option Fieldset :=
  (cache.find? (fun p => p.1 == code)).map (fun p => p.2)

/-- Input collection for a derived computation (lines 388-391): a missing
cache key raises KeyError, modelled as none. -/
def collectInputs (cache : List (String × Fieldset)) : List String → Option (List Fieldset)
  | [] => some []
  | code :: rest =>
    match lookupCache cache code with
    | none => none
    | some f => (collectInputs cache rest).map (fun fs => f :: fs)

/-- Derived-computation loop (lines 386-426).  The ratio kind filters the
two projected inputs by the mask and divides elementwise; every other
kind computes on cached fields, projects, and filters by the mask when
the predictand is accumulated.  An unbound mask crashes. -/
def derivedLoop (cfg : Config) (env : Env) (obs : List Point)
    (cache : List (String × Fieldset)) (mask : Option (List Bool)) :
    List Computation → List (String × List ℚ) → Option (List (String × List ℚ))
  | [], acc => some acc
  | comp :: rest, acc =>
    match collectInputs cache comp.inputs with
    | none => none
    | some steps =>
      if comp.field = "RATIO_FIELD" then
        match steps with
        | [dividend, divisor] =>
          if cfg.predictand.is_accumulated then
            match mask with
            | none => none
            | some m =>
              let computed_value := compute_ratio_field
                (filterByMask m (nearest_gridpoint dividend obs))
                (filterByMask m (nearest_gridpoint divisor obs))
              derivedLoop cfg env obs cache mask rest
                (acc ++ [(comp.shortname, roundL computed_value)])
          else
            derivedLoop cfg env obs cache mask rest
              (acc ++ [(comp.shortname, roundL (env.ratioNonAcc dividend divisor obs))])
        | _ => none
      else
        let computed_value := env.compute comp.field steps
        if cfg.predictand.is_accumulated then
          match mask with
          | none => none
          | some m =>
            derivedLoop cfg env obs cache mask rest
              (acc ++ [(comp.shortname,
                roundL (filterByMask m (nearest_gridpoint computed_value obs)))])
        else
          derivedLoop cfg env obs cache mask rest
            (acc ++ [(comp.shortname, roundL (nearest_gridpoint computed_value obs))])

/-- One emitted row chunk (lines 474-496): the per-case columns handed to
the serializer.  Date and time columns carry the data their formatted
strings display. -/
structure Chunk where
  baseDate : ℤ
  baseTime : ℕ
  stepEnd : ℕ
  dateOBS : ℤ
  timeOBS : ℕ
  latObs : List ℚ
  lonObs : List ℚ
  obsVals : List ℚ
  predictandVals : List ℚ
  errors : List (String × List ℚ)
  lstCol : List (String × List ℚ)
  results : List (String × List ℚ)
deriving DecidableEq

/-- Run accumulators and outputs (lines 97-99): the forecast dedup map,
the total and retained observation counters, and the chunks passed to the
serializer so far. -/
structure RunState where
  counter : List (FKey × ℕ)
  obsTOT : ℕ
  obsUSED : ℕ
  chunks : List Chunk
deriving DecidableEq

/-- Terminal outcome of one case. -/
inductive Outcome where
  | skippedDup
  | skippedRange
  | skippedObs
  | skippedObsEmpty
  | skippedForecast
  | skippedRetention
  | emitted
  | crashed
deriving DecidableEq

/-- One iteration of the case loop (lines 110-496): dedup check, range
guard, key registration, observation read, base loop, derived loop,
observation filtering, error columns, local solar time, row assembly. -/
def processCase (cfg : Config) (env : Env) (st : RunState) (c : Case) :
    RunState × Outcome :=
  let key := forecastKey cfg c
  match lookupKey st.counter key with
  | some _ => (st, .skippedDup)
  | none =>
    if c.date < cfg.parameters.date_start ∨ c.date > cfg.parameters.date_end then
      (st, .skippedRange)
    else
      let st1 := { st with counter := (key, c.idx) :: st.counter }
      match env.readObs c with
      | none => (st1, .skippedObs)
      | some obs =>
        if obs.length = 0 then (st1, .skippedObsEmpty)
        else
          let st2 := { st1 with obsTOT := st1.obsTOT + obs.length }
          match baseLoop cfg env c obs
              (base_computations cfg.computations cfg.predictors.codes cfg.predictand.code)
              initLoop with
          | .skipFC => (st2, .skippedForecast)
          | .skipRetention => (st2, .skippedRetention)
          | .crash => (st2, .crashed)
          | .ok lst =>
            match derivedLoop cfg env obs lst.cache lst.mask
                (derived_computations cfg.computations cfg.predictors.codes) lst.results with
            | none => (st2, .crashed)
            | some results =>
              match (if cfg.predictand.is_accumulated
                     then lst.mask.map (fun m => filterByMask m obs) else some obs) with
              | none => (st2, .crashed)
              | some obs2 =>
                match lst.refGeo with
                | none => (st2, .crashed)
                | some ref_geopoints =>
                  let obsVals := obs2.map Point.val
                  let latObs := obs2.map Point.lat
                  let lonObs := obs2.map Point.lon
                  let errors :=
                    (if cfg.predictand.error = "FER" then
                      [("FER", roundL (List.zipWith (fun o r => (o - r) / r) obsVals ref_geopoints))]
                     else [])
                    ++ (if cfg.predictand.error = "FE" then
                      [("FE", roundL (List.zipWith (fun o r => o - r) obsVals ref_geopoints))]
                     else [])
                  let lstCol :=
                    match cfg.computations.find? (fun comp => comp.field == "LOCAL_SOLAR_TIME") with
                    | some lc =>
                      if lc.isPostProcessed then
                        [("LST", roundL (compute_local_solar_time lonObs (validHour cfg c : ℚ)))]
                      else []
                    | none => []
                  let chunk : Chunk :=
                    { baseDate := c.date
                      baseTime := c.time
                      stepEnd := c.step_s + cfg.predictand.accumulation
                      dateOBS := validDate cfg c
                      timeOBS := validHour cfg c
                      latObs := latObs
                      lonObs := lonObs
                      obsVals := obsVals
                      predictandVals := roundL ref_geopoints
                      errors := errors
                      lstCol := lstCol
                      results := results }
                  ({ st2 with
                      obsUSED := st2.obsUSED + obs2.length
                      chunks := st2.chunks ++ [chunk] }, .emitted)

/-- Whole-run case loop: cases in scheduler order, one at a time; an
uncaught Python exception aborts the run. -/
def runCases (cfg : Config) (env : Env) : RunState → List Case → RunState
  | st, [] => st
  | st, c :: rest =>
    match processCase cfg env st c with
    | (stNext, .crashed) => stNext
    | (stNext, _) => runCases cfg env stNext rest

/-! ## Concrete witness scenario -/

/-- Concrete non-reference base computation used by witnesses. -/
def cpCompW : Computation :=
  { shortname := "CP", field := "ACCUMULATED_FIELD", inputs := ["cp"],
    isPostProcessed := true, mulScale := 1, addScale := 0 }

/-- Concrete reference computation for predictand tp used by witnesses. -/
def refCompW : Computation :=
  { shortname := "TP", field := "ACCUMULATED_FIELD", inputs := ["tp"],
    isPostProcessed := true, mulScale := 1, addScale := 0 }

/-- Concrete computation list used by witnesses: a reference computation
for predictand tp and an independent base computation for cp. -/
def comps5 : List Computation := [cpCompW, refCompW]

/-- Concrete environment for witnesses: every file read fails. -/
def envW : Env :=
  { readObs := fun _ => none
    readFC := fun _ _ _ => none
    compute := fun _ _ => fun _ => 0
    ratioNonAcc := fun _ _ _ => [] }

/-- Concrete configuration for witnesses: accumulated predictand tp with
a 6 hour window, calibration dates 0 to 10. -/
def cfgW : Config :=
  { parameters := { date_start := 0, date_end := 10 }
    predictand := { code := "tp", is_accumulated := true, accumulation := 6,
                    min_value := 1, error := "FER" }
    predictors := { codes := ["tp", "cp"], sampling_interval := 6 }
    computations := comps5 }

/-- Concrete in-range case for witnesses. -/
def caseW : Case := { date := 5, time := 0, step_s := 6, idx := 1 }

/-- Concrete out-of-range case for witnesses. -/
def caseW2 : Case := { date := 20, time := 0, step_s := 6, idx := 2 }

/-- Empty run state. -/
def st0 : RunState := { counter := [], obsTOT := 0, obsUSED := 0, chunks := [] }

/-- Run state in which the key of caseW is already registered. -/
def stReg : RunState :=
  { counter := [(forecastKey cfgW caseW, 1)], obsTOT := 7, obsUSED := 3, chunks := [] }

/-- Concrete observation set for witnesses: two points. -/
def ptsW : List Point :=
  [{ lat := 5, lon := 10, val := 2 }, { lat := -5, lon := 20, val := 3 }]

/-- Environment whose reads all succeed but whose computed fields project
to 0 everywhere, below the scaled minimum of cfgW. -/
def envW8 : Env :=
  { readObs := fun _ => some ptsW
    readFC := fun _ _ _ => some (fun _ => 0)
    compute := fun _ _ => fun _ => 0
    ratioNonAcc := fun _ _ _ => [] }

/-- Environment that reads observations but no forecast file. -/
def envW8b : Env :=
  { readObs := fun _ => some ptsW
    readFC := fun _ _ _ => none
    compute := fun _ _ => fun _ => 0
    ratioNonAcc := fun _ _ _ => [] }

/-- Environment for the emitted-case witness: reads succeed and computed
fields project each observation to its latitude, so the mask retains the
first of the two points of ptsW under the scaled minimum 1 of cfgW. -/
def envW1 : Env :=
  { readObs := fun _ => some ptsW
    readFC := fun _ _ _ => some (fun _ => 0)
    compute := fun _ _ => fun p => p.lat
    ratioNonAcc := fun _ _ _ => [] }

/-! ## Claim-side helpers for the masking invariant -/

/-- Field computed for one base computation from its loaded fieldsets. -/
def computeOf (env : Env) (flds : Computation → List Fieldset) (comp : Computation) : Fieldset :=
  env.compute comp.field (flds comp)

/-- Cache contents after the base loop: one entry per base computation,
most recent first. -/
def cacheAfterBase (env : Env) (flds : Computation → List Fieldset)
    (l : List Computation) : List (String × Fieldset) :=
  l.reverse.map (fun comp => (comp.shortname, computeOf env flds comp))

/-- Retention mask of the case: projected reference values compared with
the scaled minimum -- the single mask object of the claim. -/
def refMask (env : Env) (flds : Computation → List Fieldset) (rc : Computation)
    (pts : List Point) (mv : ℚ) : List Bool :=
  buildMask (nearest_gridpoint (computeOf env flds rc) pts) mv

/-- Reference projected values retained by the mask. -/
def refRetained (env : Env) (flds : Computation → List Fieldset) (rc : Computation)
    (pts : List Point) (mv : ℚ) : List ℚ :=
  filterByMask (refMask env flds rc pts mv) (nearest_gridpoint (computeOf env flds rc) pts)

/-- Expected computations_result entry of a non-reference base
computation: its projected values filtered by the one case mask (skipped
when not post-processed). -/
def specBaseEntry (env : Env) (flds : Computation → List Fieldset) (m : List Bool)
    (obs : List Point) (comp : Computation) : Option (String × List ℚ) :=
  if comp.isPostProcessed then
    some (comp.shortname,
      roundL (filterByMask m (nearest_gridpoint (computeOf env flds comp) obs)))
  else none

/-- Expected computations_result entry of a derived computation: its
projected values (for the ratio kind, the projected values of its two
inputs) filtered by the one case mask. -/
def specDerivedEntry (env : Env) (dflds : Computation → List Fieldset) (m : List Bool)
    (obs : List Point) (comp : Computation) : String × List ℚ :=
  (comp.shortname,
    roundL (if comp.field = "RATIO_FIELD" then
      compute_ratio_field
        (filterByMask m (nearest_gridpoint ((dflds comp).headD (fun _ => 0)) obs))
        (filterByMask m (nearest_gridpoint ((dflds comp).getLastD (fun _ => 0)) obs))
    else
      filterByMask m (nearest_gridpoint (env.compute comp.field (dflds comp)) obs)))

/-! ## Helper lemmas -/

/-- Pointwise agreement of the source local-solar-time pipeline with the
claim-side case description, for every rational hour and longitude. -/
theorem lstPoint_eq_spec (h lon : ℚ) : lstPoint h lon = lstSpecPoint h lon := by
  unfold lstPoint lstSpecPoint
  rcases lt_trichotomy lon 0 with hneg | rfl | hpos
  · have h1 : ¬ lon ≥ 0 := not_le.mpr hneg
    have h2 : lon ≠ 0 := hneg.ne
    have habs : |lon / 15| = -(lon / 15) := abs_of_neg (div_neg_of_neg_of_pos hneg (by norm_num))
    have habs2 : |lon| = -lon := abs_of_neg hneg
    rcases lt_trichotomy (h + lon / 15) 0 with hx | hx | hx
    · have c1 : h + lon / 15 < 0 := hx
      have c2 : ¬ (0 < h + lon / 15) := by linarith
      have c3 : h + lon / 15 ≠ 0 := ne_of_lt hx
      have c4 : h - |lon| / 15 < 0 := by rw [habs2]; linarith
      simp [h1, h2, hneg, habs, habs2, c1, c2, c3, c4]
      ring_nf
      split_ifs <;> linarith
    · have c1 : ¬ (h + lon / 15 < 0) := by linarith
      have c2 : ¬ (0 < h + lon / 15) := by linarith
      have c4 : ¬ (h - |lon| / 15 < 0) := by rw [habs2]; linarith
      simp [h1, h2, hneg, habs, habs2, c1, c2, c4]
      ring_nf
      split_ifs <;> linarith
    · have c1 : ¬ (h + lon / 15 < 0) := by linarith
      have c2 : 0 < h + lon / 15 := hx
      have c4 : ¬ (h - |lon| / 15 < 0) := by rw [habs2]; linarith
      simp [h1, h2, hneg, habs, habs2, c1, c2, c4]
      ring_nf
      split_ifs <;> linarith
  · norm_num
  · have h1 : lon ≥ 0 := hpos.le
    have h2 : lon ≠ 0 := hpos.ne.symm
    have h3 : ¬ lon < 0 := by linarith
    rcases lt_trichotomy (h + lon / 15) 24 with hx | hx | hx
    · have c1 : h + lon / 15 < 24 := hx
      have c2 : ¬ (h + lon / 15 ≥ 24) := by linarith
      simp [h1, h2, h3, c1, c2]
    · have c2 : h + lon / 15 ≥ 24 := by linarith
      have c3 : ¬ (h + lon / 15 < 24) := by linarith
      simp [h1, h2, h3, c2, c3]
      ring_nf
      intro hle
      linarith
    · have c2 : h + lon / 15 ≥ 24 := by linarith
      have c3 : ¬ (h + lon / 15 < 24) := by linarith
      simp [h1, h2, h3, c2, c3]
      ring_nf
      intro hle
      linarith

/-- Membership in a Python range with positive step: the arithmetic
progression below the stop bound. -/
theorem mem_pyRange (start stop step x : ℕ) (hstep : 0 < step) :
    x ∈ pyRange start stop step ↔ ∃ i, x = start + i * step ∧ x < stop := by
  simp only [pyRange, List.mem_map, List.mem_range]
  constructor
  · rintro ⟨i, hi, rfl⟩
    refine ⟨i, rfl, ?_⟩
    have h1 : (i + 1) * step ≤ stop - start + step - 1 :=
      (Nat.le_div_iff_mul_le hstep).mp hi
    rw [Nat.add_mul, one_mul] at h1
    generalize i * step = p at h1 ⊢
    omega
  · rintro ⟨i, rfl, hlt⟩
    refine ⟨i, ?_, rfl⟩
    have h2 : (i + 1) * step ≤ stop - start + step - 1 := by
      rw [Nat.add_mul, one_mul]
      generalize i * step = p at hlt ⊢
      omega
    exact (Nat.le_div_iff_mul_le hstep).mpr h2

/-- Filtering a boolean partition by its first component returns the
first component. -/
theorem filter_partition_left {α : Type} (F : List α) (r : α → Bool) :
    (F.filter r ++ F.filter (fun a => !(r a))).filter r = F.filter r := by
  rw [List.filter_append]
  have h1 : (F.filter r).filter r = F.filter r := by
    rw [List.filter_filter]
    apply List.filter_congr
    intro a _
    cases r a <;> simp
  have h2 : (F.filter (fun a => !(r a))).filter r = [] := by
    apply List.filter_eq_nil_iff.mpr
    intro a ha
    have hr := (List.mem_filter.mp ha).2
    simp only [Bool.not_eq_true'] at hr
    simp [hr]
  rw [h1, h2, List.append_nil]

/-- Filtering a boolean partition by its second component returns the
second component. -/
theorem filter_partition_right {α : Type} (F : List α) (r : α → Bool) :
    (F.filter r ++ F.filter (fun a => !(r a))).filter (fun a => !(r a)) =
      F.filter (fun a => !(r a)) := by
  rw [List.filter_append]
  have h1 : (F.filter r).filter (fun a => !(r a)) = [] := by
    apply List.filter_eq_nil_iff.mpr
    intro a ha
    have hr := (List.mem_filter.mp ha).2
    simp [hr]
  have h2 : (F.filter (fun a => !(r a))).filter (fun a => !(r a)) =
      F.filter (fun a => !(r a)) := by
    rw [List.filter_filter]
    apply List.filter_congr
    intro a _
    cases r a <;> simp
  rw [h1, h2, List.nil_append]

/-- In a boolean partition, every index holding a key-true element comes
before every index holding a key-false element. -/
theorem ref_before_nonref {α : Type} (F : List α) (r : α → Bool)
    (i j : Fin (F.filter r ++ F.filter (fun a => !(r a))).length)
    (hi : r ((F.filter r ++ F.filter (fun a => !(r a))).get i) = true)
    (hj : r ((F.filter r ++ F.filter (fun a => !(r a))).get j) = false) :
    (i : ℕ) < (j : ℕ) := by
  simp only [List.get_eq_getElem] at hi hj
  have h1 : (i : ℕ) < (F.filter r).length := by
    by_contra hcon
    push_neg at hcon
    have hgm : (F.filter r ++ F.filter (fun a => !(r a)))[(i : ℕ)] ∈
        F.filter (fun a => !(r a)) := by
      rw [List.getElem_append_right hcon]
      exact List.getElem_mem _
    have hr := (List.mem_filter.mp hgm).2
    rw [hi] at hr
    simp at hr
  have h2 : (F.filter r).length ≤ (j : ℕ) := by
    by_contra hcon
    push_neg at hcon
    have hgm : (F.filter r ++ F.filter (fun a => !(r a)))[(j : ℕ)] ∈ F.filter r := by
      rw [List.getElem_append_left hcon]
      exact List.getElem_mem _
    have hr := (List.mem_filter.mp hgm).2
    rw [hj] at hr
    simp at hr
  omega

/-- Folding addition over a list from an initial value adds the sum. -/
theorem foldl_add_eq (l : List ℚ) (a : ℚ) : l.foldl (· + ·) a = a + l.sum := by
  induction l generalizing a with
  | nil => simp
  | cons x xs ih => simp [List.foldl_cons, ih, List.sum_cons]; ring

/-- Lookup of a freshly inserted key returns its value. -/
theorem lookupKey_cons_self (k : FKey) (v : ℕ) (rest : List (FKey × ℕ)) :
    lookupKey ((k, v) :: rest) k = some v := by
  simp [lookupKey]

/-- After a fresh in-range case is admitted, its dedup key is registered
in the resulting run state, whatever the environment does afterwards. -/
theorem counter_after_registration (cfg : Config) (env : Env) (st : RunState) (c : Case)
    (hnone : lookupKey st.counter (forecastKey cfg c) = none)
    (hrange : ¬(c.date < cfg.parameters.date_start ∨ c.date > cfg.parameters.date_end)) :
    ((processCase cfg env st c).1).counter = (forecastKey cfg c, c.idx) :: st.counter := by
  rcases henv : env.readObs c with _ | obs
  · simp [processCase, hnone, hrange, henv]
  · by_cases hlen : obs.length = 0
    · simp [processCase, hnone, hrange, henv, hlen]
    · rcases hbl : baseLoop cfg env c obs
          (base_computations cfg.computations cfg.predictors.codes cfg.predictand.code)
          initLoop with lst | _ | _ | _
      · rcases hdl : derivedLoop cfg env obs lst.cache lst.mask
            (derived_computations cfg.computations cfg.predictors.codes) lst.results
            with _ | results
        · simp [processCase, hnone, hrange, henv, hlen, hbl, hdl]
        · rcases hmo : (if cfg.predictand.is_accumulated
              then lst.mask.map (fun m => filterByMask m obs) else some obs) with _ | obs2
          · simp [processCase, hnone, hrange, henv, hlen, hbl, hdl, hmo]
          · rcases hrg : lst.refGeo with _ | refg
            · simp [processCase, hnone, hrange, henv, hlen, hbl, hdl, hmo, hrg]
            · simp [processCase, hnone, hrange, henv, hlen, hbl, hdl, hmo, hrg]
      · simp [processCase, hnone, hrange, henv, hlen, hbl]
      · simp [processCase, hnone, hrange, henv, hlen, hbl]
      · simp [processCase, hnone, hrange, henv, hlen, hbl]

/-- Every value retained by the retention mask is at least the minimum. -/
theorem filterByMask_buildMask_ge (ref : List ℚ) (mv : ℚ) :
    ∀ x ∈ filterByMask (buildMask ref mv) ref, mv ≤ x := by
  induction ref with
  | nil => simp [filterByMask, buildMask]
  | cons a l ih =>
    intro x hx
    by_cases ha : mv ≤ a
    · simp [filterByMask, buildMask, ha] at hx
      rcases hx with rfl | hx
      · exact ha
      · exact ih x (by simpa [filterByMask, buildMask] using hx)
    · simp [filterByMask, buildMask, ha] at hx
      exact ih x (by simpa [filterByMask, buildMask] using hx)

/-- A mask built from values that all reach the minimum is all true. -/
theorem buildMask_all_true (l : List ℚ) (mv : ℚ) (h : ∀ x ∈ l, mv ≤ x) :
    buildMask l mv = List.replicate l.length true := by
  induction l with
  | nil => rfl
  | cons a t ih =>
    have ha : mv ≤ a := h a (List.mem_cons_self a t)
    simp [buildMask, List.replicate, ha] at ih ⊢
    exact ih fun x hx => h x (List.mem_cons_of_mem a hx)

/-- Filtering by an all-true mask at least as long as the list is the
identity. -/
theorem filterByMask_replicate_true {α : Type} (l : List α) (n : ℕ) (h : l.length ≤ n) :
    filterByMask (List.replicate n true) l = l := by
  induction l generalizing n with
  | nil => simp [filterByMask]
  | cons a t ih =>
    cases n with
    | zero => simp at h
    | succ k =>
      simp only [List.replicate, filterByMask, List.zip_cons_cons, List.filterMap_cons,
        if_pos]
      exact congrArg (List.cons a) (ih k (by simpa using h))

/-- The length of a mask-filtered list depends only on the mask and the
length of the list. -/
theorem filterByMask_length_congr {α β : Type} (mask : List Bool) (xs : List α)
    (ys : List β) (h : xs.length = ys.length) :
    (filterByMask mask xs).length = (filterByMask mask ys).length := by
  induction mask generalizing xs ys with
  | nil => simp [filterByMask]
  | cons b m ih =>
    cases xs with
    | nil =>
      cases ys with
      | nil => rfl
      | cons y ty => simp at h
    | cons x tx =>
      cases ys with
      | nil => simp at h
      | cons y ty =>
        simp only [filterByMask, List.zip_cons_cons, List.filterMap_cons]
        have ht := ih tx ty (by simpa using h)
        cases b
        · simpa [filterByMask] using ht
        · simpa [filterByMask] using ht

/-- Base-loop invariant: over computations that are not the reference,
when every forecast read succeeds, the loop completes, leaves the mask
and retained reference unchanged, extends the cache with one entry per
computation, and appends for every post-processed computation its
projected values filtered by the mask currently in force. -/
theorem baseLoop_noref (cfg : Config) (env : Env) (c : Case) (obs : List Point)
    (l : List Computation) (st : LoopSt) (m : List Bool)
    (flds : Computation → List Fieldset)
    (hacc : cfg.predictand.is_accumulated = true)
    (hm : st.mask = some m)
    (hnoref : ∀ comp ∈ l, is_reference cfg.predictand.code comp = false)
    (hinp : ∀ comp ∈ l, ∃ pc tl, comp.inputs = pc :: tl)
    (hread : ∀ comp ∈ l, readSteps env c (comp.inputs.headD "")
      (resolve_steps cfg.predictand.is_accumulated comp.field c.step_s
        cfg.predictand.accumulation cfg.predictors.sampling_interval) = some (flds comp)) :
    baseLoop cfg env c obs l st = .ok
      { cache := (l.reverse.map (fun comp => (comp.shortname, computeOf env flds comp)))
          ++ st.cache
        results := st.results ++ l.filterMap (specBaseEntry env flds m obs)
        mask := st.mask
        refGeo := st.refGeo } := by
  induction l generalizing st with
  | nil => simp [baseLoop]
  | cons comp rest ih =>
    obtain ⟨pc, tl, hct⟩ := hinp comp (List.mem_cons_self comp rest)
    have hr := hread comp (List.mem_cons_self comp rest)
    rw [hct] at hr
    simp only [List.headD_cons] at hr
    have hnr := hnoref comp (List.mem_cons_self comp rest)
    have ihq := fun st2 hm2 => ih st2 hm2
      (fun x hx => hnoref x (List.mem_cons_of_mem comp hx))
      (fun x hx => hinp x (List.mem_cons_of_mem comp hx))
      (fun x hx => hread x (List.mem_cons_of_mem comp hx))
    by_cases hpp : comp.isPostProcessed = false
    · rw [show baseLoop cfg env c obs (comp :: rest) st = baseLoop cfg env c obs rest
          { st with cache := (comp.shortname,
            env.compute comp.field (flds comp)) :: st.cache } from by
        simp [baseLoop, hct, hr, hpp]]
      rw [ihq _ (by simpa using hm)]
      simp [specBaseEntry, hpp, computeOf, List.filterMap_cons]
    · rw [show baseLoop cfg env c obs (comp :: rest) st = baseLoop cfg env c obs rest
          { st with
            cache := (comp.shortname, env.compute comp.field (flds comp)) :: st.cache
            results := st.results ++ [(comp.shortname,
              roundL (filterByMask m
                (nearest_gridpoint (env.compute comp.field (flds comp)) obs)))] } from by
        simp only [baseLoop, hct, hr]
        simp [hpp, hnr, hacc, hm]]
      rw [ihq _ (by simpa using hm)]
      simp only [Bool.not_eq_false] at hpp
      simp [specBaseEntry, hpp, computeOf, List.filterMap_cons, List.append_assoc]

/-- Derived-loop invariant: with the mask bound and every cache lookup
succeeding, the loop appends for every derived computation its expected
entry, filtered by that same mask. -/
theorem derivedLoop_spec (cfg : Config) (env : Env) (obs : List Point)
    (cache : List (String × Fieldset)) (m : List Bool) (l : List Computation)
    (acc : List (String × List ℚ)) (dflds : Computation → List Fieldset)
    (hacc : cfg.predictand.is_accumulated = true)
    (hin : ∀ comp ∈ l, collectInputs cache comp.inputs = some (dflds comp))
    (hratio : ∀ comp ∈ l, comp.field = "RATIO_FIELD" → ∃ a b, dflds comp = [a, b]) :
    derivedLoop cfg env obs cache (some m) l acc =
      some (acc ++ l.map (specDerivedEntry env dflds m obs)) := by
  induction l generalizing acc with
  | nil => simp [derivedLoop]
  | cons comp rest ih =>
    have hc := hin comp (List.mem_cons_self comp rest)
    have ihq := fun acc2 => ih acc2
      (fun x hx => hin x (List.mem_cons_of_mem comp hx))
      (fun x hx => hratio x (List.mem_cons_of_mem comp hx))
    by_cases hrf : comp.field = "RATIO_FIELD"
    · obtain ⟨a, b, hab⟩ := hratio comp (List.mem_cons_self comp rest) hrf
      rw [show derivedLoop cfg env obs cache (some m) (comp :: rest) acc =
          derivedLoop cfg env obs cache (some m) rest (acc ++ [(comp.shortname,
            roundL (compute_ratio_field
              (filterByMask m (nearest_gridpoint a obs))
              (filterByMask m (nearest_gridpoint b obs))))]) from by
        simp only [derivedLoop, hc, hab]
        simp [hrf, hacc]]
      rw [ihq _]
      simp [specDerivedEntry, hrf, hab, List.append_assoc]
    · rw [show derivedLoop cfg env obs cache (some m) (comp :: rest) acc =
          derivedLoop cfg env obs cache (some m) rest (acc ++ [(comp.shortname,
            roundL (filterByMask m (nearest_gridpoint
              (env.compute comp.field (dflds comp)) obs)))]) from by
        simp only [derivedLoop, hc]
        simp [hrf, hacc]]
      rw [ihq _]
      simp [specDerivedEntry, hrf, List.append_assoc]

/-! ## Claim theorems -/

/-- Claim C2: for every longitude array and integer issue hour, the
local-solar-time operator returns, per point: for longitude > 0, issue
hour + longitude/15, reduced by 24 when the sum is at least 24; for
longitude < 0, issue hour - |longitude|/15, increased by 24 when the
difference is negative; and a point with exactly-zero longitude
contributes zero.  Moreover longitude 30 at hour 20 gives 22, longitude
30 at hour 14 gives 16, and longitude -60 at hour 2 gives 22. -/
theorem claim_C2 :
    (∀ (longitudes : List ℚ) (hour : ℤ),
      compute_local_solar_time longitudes (hour : ℚ) =
        longitudes.map (lstSpecPoint (hour : ℚ))) ∧
    compute_local_solar_time [30] 20 = [22] ∧
    compute_local_solar_time [30] 14 = [16] ∧
    compute_local_solar_time [-60] 2 = [22] := by
  refine ⟨fun lons hour => ?_, ?_, ?_, ?_⟩
  · have hf : lstPoint (hour : ℚ) = lstSpecPoint (hour : ℚ) :=
      funext fun lon => lstPoint_eq_spec _ lon
    rw [compute_local_solar_time, hf]
  · norm_num [compute_local_solar_time, lstPoint]
  · norm_num [compute_local_solar_time, lstPoint]
  · norm_num [compute_local_solar_time, lstPoint]

/-- Claim C3: for an accumulated predictand, the lead-time resolver for
the scaled-24h-accumulation (solar radiation) kind returns [s, s+acc]
when acc = 24, else [0, 24] when s+acc is at most 24, else
[s+acc-24, s+acc]; concretely acc=24 s=6 gives [6, 30], acc=6 s=20 gives
[2, 26], and acc=6 s=10 gives [0, 24]. -/
theorem claim_C3 :
    (∀ s acc sampling_interval : ℕ,
      resolve_steps true "24H_SOLAR_RADIATION" s acc sampling_interval =
        if acc = 24 then [s, s + acc]
        else if s + acc ≤ 24 then [0, 24]
        else [s + acc - 24, s + acc]) ∧
    resolve_steps true "24H_SOLAR_RADIATION" 6 24 6 = [6, 30] ∧
    resolve_steps true "24H_SOLAR_RADIATION" 20 6 6 = [2, 26] ∧
    resolve_steps true "24H_SOLAR_RADIATION" 10 6 6 = [0, 24] := by
  refine ⟨fun s acc sampling_interval => ?_, by decide, by decide, by decide⟩
  simp [resolve_steps]

/-- Claim C4: for every list of two or more inputs, the weighted-average
operator equals (half the first input, plus the interior inputs, plus
half the last input) divided by the interior count plus one; in
particular [10, 20, 30] averages to 20 and [10, 30] averages to 20. -/
theorem claim_C4 :
    (∀ args : List ℚ, 2 ≤ args.length →
      compute_weighted_average_field args =
        (args.headD 0 * (1/2) + ((args.drop 1).dropLast).sum + args.getLastD 0 * (1/2)) /
          (((args.drop 1).dropLast).length + 1)) ∧
    compute_weighted_average_field [10, 20, 30] = 20 ∧
    compute_weighted_average_field [10, 30] = 20 := by
  refine ⟨fun args _ => ?_, ?_, ?_⟩
  · unfold compute_weighted_average_field
    by_cases hm : (args.drop 1).dropLast = []
    · rw [if_neg (not_not_intro hm), hm]
      norm_num
    · simp only [hm, ne_eq, not_false_eq_true, if_pos, foldl_add_eq]
      have : ((((args.drop 1).dropLast).length : ℚ) * 1 + 2 * (1/2)) =
          (((args.drop 1).dropLast).length : ℚ) + 1 := by ring
      rw [this]
      ring_nf
  · norm_num [compute_weighted_average_field]
  · norm_num [compute_weighted_average_field]

/-- Witness for claim C4, instantiated at the input [10, 20, 30]. -/
theorem claim_C4_witness :
    2 ≤ ([10, 20, 30] : List ℚ).length ∧
    compute_weighted_average_field [10, 20, 30] =
      (([10, 20, 30] : List ℚ).headD 0 * (1/2)
        + ((([10, 20, 30] : List ℚ).drop 1).dropLast).sum
        + ([10, 20, 30] : List ℚ).getLastD 0 * (1/2)) /
        (((([10, 20, 30] : List ℚ).drop 1).dropLast).length + 1) :=
  ⟨by norm_num, claim_C4.1 [10, 20, 30] (by norm_num)⟩

/-- Counterexample to claim C7 as stated: the claim assigns [s, s+acc] to
every accumulated kind other than the averages and the extrema, but the
scaled-24h-accumulation kind follows its own calendar-day rule; at
s = 10, acc = 6 the resolver returns [0, 24], not [10, 16]. -/
theorem claim_C7_counterexample :
    resolve_steps true "24H_SOLAR_RADIATION" 10 6 6 = [0, 24] ∧
    resolve_steps true "24H_SOLAR_RADIATION" 10 6 6 ≠ [10, 10 + 6] := by
  constructor
  · decide
  · decide

/-- Claim C7 (amended): the resolver returns [s] when the predictand is
not accumulated; for an accumulated predictand it returns every multiple
of the sampling interval from s to s+acc inclusive for the
weighted-average and simple-average kinds, every such multiple excluding
the window start for the maximum and minimum kinds, and [s, s+acc] for
every other kind except the scaled-24h-accumulation kind (which follows
the calendar-day rule of claim C3). -/
theorem claim_C7 :
    (∀ ( field : String) (s acc sampling_interval : ℕ),
      resolve_steps false field s acc sampling_interval = [s]) ∧
    (∀ ( field : String) (s acc sampling_interval : ℕ), 0 < sampling_interval →
      (field = "WEIGHTED_AVERAGE_FIELD" ∨ field = "AVERAGE_FIELD") →
      ∀ x, x ∈ resolve_steps true field s acc sampling_interval ↔
        ∃ k, x = s + k * sampling_interval ∧ x ≤ s + acc) ∧
    (∀ ( field : String) (s acc sampling_interval : ℕ), 0 < sampling_interval →
      (field = "MAXIMUM_FIELD" ∨ field = "MINIMUM_FIELD") →
      ∀ x, x ∈ resolve_steps true field s acc sampling_interval ↔
        ∃ k, 1 ≤ k ∧ x = s + k * sampling_interval ∧ x ≤ s + acc) ∧
    (∀ ( field : String) (s acc sampling_interval : ℕ),
      field ∉ (["24H_SOLAR_RADIATION", "WEIGHTED_AVERAGE_FIELD", "AVERAGE_FIELD",
        "MAXIMUM_FIELD", "MINIMUM_FIELD"] : List String) →
      resolve_steps true field s acc sampling_interval = [s, s + acc]) := by
  refine ⟨fun f s acc d => by simp [resolve_steps], ?_, ?_, ?_⟩
  · rintro f s acc d hd (rfl | rfl) x <;>
    · rw [show resolve_steps true _ s acc d = pyRange s (s + acc + 1) d by
        simp [resolve_steps]]
      rw [mem_pyRange _ _ _ _ hd]
      constructor
      · rintro ⟨i, rfl, hlt⟩
        exact ⟨i, rfl, by omega⟩
      · rintro ⟨i, rfl, hle⟩
        exact ⟨i, rfl, by omega⟩
  · rintro f s acc d hd (rfl | rfl) x <;>
    · rw [show resolve_steps true _ s acc d = pyRange (s + d) (s + acc + 1) d by
        simp [resolve_steps]]
      rw [mem_pyRange _ _ _ _ hd]
      constructor
      · rintro ⟨i, rfl, hlt⟩
        exact ⟨i + 1, by omega, by rw [Nat.add_mul, one_mul]; omega, by omega⟩
      · rintro ⟨k, hk, rfl, hle⟩
        obtain ⟨j, rfl⟩ : ∃ j, k = j + 1 := ⟨k - 1, by omega⟩
        exact ⟨j, by rw [Nat.add_mul, one_mul]; omega, by omega⟩
  · intro f s acc d hf
    simp only [List.mem_cons, List.mem_singleton] at hf
    push_neg at hf
    obtain ⟨h1, h2, h3, h4, h5⟩ := hf
    simp [resolve_steps, h1, h2, h3, h4, h5]

/-- Witness for the amended claim C7, instantiated at sampling interval
6, lead time 6, accumulation 12, and each kind family. -/
theorem claim_C7_witness :
    ((12 : ℕ) ∈ resolve_steps true "WEIGHTED_AVERAGE_FIELD" 6 12 6 ↔
      ∃ k, 12 = 6 + k * 6 ∧ 12 ≤ 6 + 12) ∧
    ((12 : ℕ) ∈ resolve_steps true "MAXIMUM_FIELD" 6 12 6 ↔
      ∃ k, 1 ≤ k ∧ 12 = 6 + k * 6 ∧ 12 ≤ 6 + 12) ∧
    resolve_steps true "VECTOR_FIELD" 6 12 6 = [6, 6 + 12] :=
  ⟨claim_C7.2.1 "WEIGHTED_AVERAGE_FIELD" 6 12 6 (by decide) (Or.inl rfl) 12,
   claim_C7.2.2.1 "MAXIMUM_FIELD" 6 12 6 (by decide) (Or.inl rfl) 12,
   claim_C7.2.2.2 "VECTOR_FIELD" 6 12 6 (by decide)⟩

/-- Claim C5: a computation is derived iff some input code lies outside
the raw predictor set, it is post-processed, and its kind is not
local-solar-time; base computations are all remaining non-local-solar-time
computations; and the base list is the configured order stably reordered
with every reference computation before every non-reference one. -/
theorem claim_C5 :
    ∀ (computations : List Computation) (base_fields : List String) (pcode : String),
      (∀ c, c ∈ derived_computations computations base_fields ↔
        c ∈ computations ∧ (∃ code ∈ c.inputs, code ∉ base_fields) ∧
          c.isPostProcessed = true ∧ c.field ≠ "LOCAL_SOLAR_TIME") ∧
      (∀ c, c ∈ base_computations computations base_fields pcode ↔
        c ∈ computations ∧
          ¬((∃ code ∈ c.inputs, code ∉ base_fields) ∧ c.isPostProcessed = true ∧
            c.field ≠ "LOCAL_SOLAR_TIME") ∧
          c.field ≠ "LOCAL_SOLAR_TIME") ∧
      ((base_computations computations base_fields pcode).filter
          (fun c => is_reference pcode c) =
        (computations.filter (fun c => !(derivedPred base_fields c) &&
          (c.field != "LOCAL_SOLAR_TIME"))).filter (fun c => is_reference pcode c)) ∧
      ((base_computations computations base_fields pcode).filter
          (fun c => !(is_reference pcode c)) =
        (computations.filter (fun c => !(derivedPred base_fields c) &&
          (c.field != "LOCAL_SOLAR_TIME"))).filter (fun c => !(is_reference pcode c))) ∧
      (∀ i j : Fin (base_computations computations base_fields pcode).length,
        is_reference pcode ((base_computations computations base_fields pcode).get i) = true →
        is_reference pcode ((base_computations computations base_fields pcode).get j) = false →
        (i : ℕ) < (j : ℕ)) := by
  intro comps bf pcode
  have hderiv : ∀ c : Computation, derivedPred bf c = true ↔
      ((∃ code ∈ c.inputs, code ∉ bf) ∧ c.isPostProcessed = true ∧
        c.field ≠ "LOCAL_SOLAR_TIME") := by
    intro c
    simp [derivedPred, List.any_eq_true, Bool.and_eq_true, bne_iff_ne]
    tauto
  have hbasePred : ∀ c : Computation,
      (!(derivedPred bf c) && (c.field != "LOCAL_SOLAR_TIME")) = true ↔
      (¬((∃ code ∈ c.inputs, code ∉ bf) ∧ c.isPostProcessed = true ∧
        c.field ≠ "LOCAL_SOLAR_TIME") ∧ c.field ≠ "LOCAL_SOLAR_TIME") := by
    intro c
    rw [Bool.and_eq_true, Bool.not_eq_true', ← Bool.not_eq_true (derivedPred bf c),
      not_iff_not.mpr (hderiv c)]
    simp [bne_iff_ne]
  have hsplit : ∀ c, c ∈ base_computations comps bf pcode ↔
      c ∈ comps.filter (fun c => !(derivedPred bf c) && (c.field != "LOCAL_SOLAR_TIME")) := by
    intro c
    unfold base_computations stable_sorted_ref_first
    constructor
    · intro h
      rcases List.mem_append.mp h with h | h
      · exact (List.mem_filter.mp h).1
      · exact (List.mem_filter.mp h).1
    · intro h
      cases hr : is_reference pcode c
      · exact List.mem_append.mpr (Or.inr (List.mem_filter.mpr ⟨h, by simp [hr]⟩))
      · exact List.mem_append.mpr (Or.inl (List.mem_filter.mpr ⟨h, by simp [hr]⟩))
  refine ⟨?_, ?_, ?_, ?_, ?_⟩
  · intro c
    rw [derived_computations, List.mem_filter, hderiv]
  · intro c
    rw [hsplit, List.mem_filter, hbasePred]
  · exact filter_partition_left
      (comps.filter (fun c => !(derivedPred bf c) && (c.field != "LOCAL_SOLAR_TIME")))
      (fun c => is_reference pcode c)
  · exact filter_partition_right
      (comps.filter (fun c => !(derivedPred bf c) && (c.field != "LOCAL_SOLAR_TIME")))
      (fun c => is_reference pcode c)
  · intro i j hi hj
    exact ref_before_nonref
      (comps.filter (fun c => !(derivedPred bf c) && (c.field != "LOCAL_SOLAR_TIME")))
      (fun c => is_reference pcode c) i j hi hj

/-- Witness for claim C5: in the concrete two-computation list, the
reference computation ends up at index 0 and the non-reference one at
index 1 of the base list. -/
theorem claim_C5_witness :
    is_reference "tp" ((base_computations comps5 ["tp", "cp"] "tp").get ⟨0, by decide⟩) = true ∧
    is_reference "tp" ((base_computations comps5 ["tp", "cp"] "tp").get ⟨1, by decide⟩) = false ∧
    ((⟨0, by decide⟩ : Fin (base_computations comps5 ["tp", "cp"] "tp").length) : ℕ) <
      ((⟨1, by decide⟩ : Fin (base_computations comps5 ["tp", "cp"] "tp").length) : ℕ) :=
  ⟨by decide, by decide,
    (claim_C5 comps5 ["tp", "cp"] "tp").2.2.2.2 ⟨0, by decide⟩ ⟨1, by decide⟩
      (by decide) (by decide)⟩

/-- Claim C6: a case whose forecast key is already registered in the run
dedup map is skipped immediately: the run state is returned unchanged (no
rows, no accumulator changes), the outcome is skippedDup, and the result
does not depend on the environment, so no file is read. -/
theorem claim_C6 (cfg : Config) (env : Env) (st : RunState) (c : Case) (j : ℕ)
    (hreg : lookupKey st.counter (forecastKey cfg c) = some j) :
    processCase cfg env st c = (st, .skippedDup) := by
  simp [processCase, hreg]

/-- Witness for claim C6: with the key of caseW registered, the case is
skipped and the state (including both accumulators) is untouched. -/
theorem claim_C6_witness :
    processCase cfgW envW stReg caseW = (stReg, .skippedDup) :=
  claim_C6 cfgW envW stReg caseW 1 (by decide)

/-- Claim C9: a fresh case that passes the range guard registers its
dedup key before any file is read (so the registration survives whatever
skip happens later in that case), while an out-of-range fresh case is
skipped without registering anything. -/
theorem claim_C9 (cfg : Config) (env : Env) (st : RunState) (c : Case) :
    (lookupKey st.counter (forecastKey cfg c) = none →
      ¬(c.date < cfg.parameters.date_start ∨ c.date > cfg.parameters.date_end) →
      lookupKey ((processCase cfg env st c).1).counter (forecastKey cfg c) = some c.idx) ∧
    (lookupKey st.counter (forecastKey cfg c) = none →
      (c.date < cfg.parameters.date_start ∨ c.date > cfg.parameters.date_end) →
      processCase cfg env st c = (st, .skippedRange)) := by
  constructor
  · intro hnone hrange
    rw [counter_after_registration cfg env st c hnone hrange]
    exact lookupKey_cons_self _ _ _
  · intro hnone hrange
    simp [processCase, hnone, hrange]

/-- Witness for claim C9: with an environment in which every read fails,
the in-range caseW still registers its key, and the out-of-range caseW2
leaves the empty state unchanged. -/
theorem claim_C9_witness :
    lookupKey ((processCase cfgW envW st0 caseW).1).counter (forecastKey cfgW caseW) = some 1 ∧
    processCase cfgW envW st0 caseW2 = (st0, .skippedRange) :=
  ⟨(claim_C9 cfgW envW st0 caseW).1 (by decide) (by decide),
   (claim_C9 cfgW envW st0 caseW2).2 (by decide) (by decide)⟩

/-- Claim C8: in a case whose reference computation retains zero
observations after masking (accumulated predictand), the case is skipped
with the retention outcome and contributes no chunk, and the run
continues with the next case; likewise when a forecast file of the
reference computation cannot be read. -/
theorem claim_C8 (cfg : Config) (env : Env) (st : RunState) (c : Case) (pts : List Point)
    (rc : Computation) (rest : List Computation) (pcode : String) (tl : List String)
    (hacc : cfg.predictand.is_accumulated = true)
    (hfresh : lookupKey st.counter (forecastKey cfg c) = none)
    (hrange : ¬(c.date < cfg.parameters.date_start ∨ c.date > cfg.parameters.date_end))
    (hobs : env.readObs c = some pts)
    (hne : pts.length ≠ 0)
    (hbase : base_computations cfg.computations cfg.predictors.codes cfg.predictand.code =
      rc :: rest)
    (hinp : rc.inputs = pcode :: tl)
    (hpp : rc.isPostProcessed = true)
    (href : is_reference cfg.predictand.code rc = true) :
    (∀ fs, readSteps env c pcode
        (resolve_steps cfg.predictand.is_accumulated rc.field c.step_s
          cfg.predictand.accumulation cfg.predictors.sampling_interval) = some fs →
      filterByMask
          (buildMask (nearest_gridpoint (env.compute rc.field fs) pts)
            (predictand_min_value cfg))
          (nearest_gridpoint (env.compute rc.field fs) pts) = [] →
      processCase cfg env st c =
        ({ st with
            counter := (forecastKey cfg c, c.idx) :: st.counter
            obsTOT := st.obsTOT + pts.length }, .skippedRetention) ∧
        ((processCase cfg env st c).1).chunks = st.chunks ∧
        (∀ more, runCases cfg env st (c :: more) =
          runCases cfg env ((processCase cfg env st c).1) more)) ∧
    (readSteps env c pcode
        (resolve_steps cfg.predictand.is_accumulated rc.field c.step_s
          cfg.predictand.accumulation cfg.predictors.sampling_interval) = none →
      processCase cfg env st c =
        ({ st with
            counter := (forecastKey cfg c, c.idx) :: st.counter
            obsTOT := st.obsTOT + pts.length }, .skippedForecast) ∧
        ((processCase cfg env st c).1).chunks = st.chunks ∧
        (∀ more, runCases cfg env st (c :: more) =
          runCases cfg env ((processCase cfg env st c).1) more)) := by
  constructor
  · intro fs hread hempty
    rw [hacc] at hread
    have hbl : baseLoop cfg env c pts (rc :: rest) initLoop = .skipRetention := by
      simp [baseLoop, hinp, hread, hpp, href, hacc, hempty]
    have hmain : processCase cfg env st c =
        ({ st with
            counter := (forecastKey cfg c, c.idx) :: st.counter
            obsTOT := st.obsTOT + pts.length }, .skippedRetention) := by
      simp [processCase, hfresh, hrange, hobs, hne, hbase, hbl]
    refine ⟨hmain, by rw [hmain], fun more => ?_⟩
    rw [runCases, hmain]
  · intro hread
    rw [hacc] at hread
    have hbl : baseLoop cfg env c pts (rc :: rest) initLoop = .skipFC := by
      simp [baseLoop, hinp, hread, hacc]
    have hmain : processCase cfg env st c =
        ({ st with
            counter := (forecastKey cfg c, c.idx) :: st.counter
            obsTOT := st.obsTOT + pts.length }, .skippedForecast) := by
      simp [processCase, hfresh, hrange, hobs, hne, hbase, hbl]
    refine ⟨hmain, by rw [hmain], fun more => ?_⟩
    rw [runCases, hmain]

/-- Witness for claim C8: with fields projecting to 0 (below the scaled
minimum 1 of cfgW) the case is skipped by retention with no chunk; with
unreadable forecast files it is skipped by the forecast guard. -/
theorem claim_C8_witness :
    (processCase cfgW envW8 st0 caseW =
      ({ st0 with
          counter := (forecastKey cfgW caseW, caseW.idx) :: st0.counter
          obsTOT := st0.obsTOT + ptsW.length }, .skippedRetention) ∧
      ((processCase cfgW envW8 st0 caseW).1).chunks = st0.chunks ∧
      runCases cfgW envW8 st0 [caseW] =
        runCases cfgW envW8 ((processCase cfgW envW8 st0 caseW).1) []) ∧
    (processCase cfgW envW8b st0 caseW =
      ({ st0 with
          counter := (forecastKey cfgW caseW, caseW.idx) :: st0.counter
          obsTOT := st0.obsTOT + ptsW.length }, .skippedForecast) ∧
      ((processCase cfgW envW8b st0 caseW).1).chunks = st0.chunks ∧
      runCases cfgW envW8b st0 [caseW] =
        runCases cfgW envW8b ((processCase cfgW envW8b st0 caseW).1) []) := by
  constructor
  · have h := (claim_C8 cfgW envW8 st0 caseW ptsW refCompW [cpCompW] "tp" []
        rfl rfl (by decide) rfl (by decide) (by decide) rfl rfl (by decide)).1
        [fun _ => 0, fun _ => 0] rfl
        (by
          have hmv : predictand_min_value cfgW = 1 := by
            norm_num [predictand_min_value, cfgW, comps5, cpCompW]
          rw [hmv]
          decide)
    exact ⟨h.1, h.2.1, h.2.2 []⟩
  · have h := (claim_C8 cfgW envW8b st0 caseW ptsW refCompW [cpCompW] "tp" []
        rfl rfl (by decide) rfl (by decide) (by decide) rfl rfl (by decide)).2 rfl
    exact ⟨h.1, h.2.1, h.2.2 []⟩

/-- Claim C1: in every successfully emitted case with an accumulated
predictand (exactly one reference computation, placed first by the
partitioner), the retention mask is computed once, as projected reference
values compared with the scaled minimum, and that same mask filters every
other post-processed base computation, every derived computation, and the
observation set before row assembly; and re-deriving the mask from the
already-filtered reference and filtering again changes nothing. -/
theorem claim_C1 :
    (∀ (cfg : Config) (env : Env) (st : RunState) (c : Case) (pts : List Point)
        (rc : Computation) (rest : List Computation) (pcode : String) (tl : List String)
        (flds dflds : Computation → List Fieldset),
      cfg.predictand.is_accumulated = true →
      lookupKey st.counter (forecastKey cfg c) = none →
      ¬(c.date < cfg.parameters.date_start ∨ c.date > cfg.parameters.date_end) →
      env.readObs c = some pts →
      pts.length ≠ 0 →
      base_computations cfg.computations cfg.predictors.codes cfg.predictand.code =
        rc :: rest →
      rc.inputs = pcode :: tl →
      rc.isPostProcessed = true →
      is_reference cfg.predictand.code rc = true →
      (∀ comp ∈ rest, is_reference cfg.predictand.code comp = false) →
      (∀ comp ∈ rc :: rest, ∃ pc tl2, comp.inputs = pc :: tl2) →
      (∀ comp ∈ rc :: rest, readSteps env c (comp.inputs.headD "")
        (resolve_steps cfg.predictand.is_accumulated comp.field c.step_s
          cfg.predictand.accumulation cfg.predictors.sampling_interval) = some (flds comp)) →
      refRetained env flds rc pts (predictand_min_value cfg) ≠ [] →
      (∀ d ∈ derived_computations cfg.computations cfg.predictors.codes,
        collectInputs (cacheAfterBase env flds (rc :: rest)) d.inputs = some (dflds d)) →
      (∀ d ∈ derived_computations cfg.computations cfg.predictors.codes,
        d.field = "RATIO_FIELD" → ∃ a b, dflds d = [a, b]) →
      ∃ ch : Chunk,
        processCase cfg env st c =
          ({ st with
              counter := (forecastKey cfg c, c.idx) :: st.counter
              obsTOT := st.obsTOT + pts.length
              obsUSED := st.obsUSED + (filterByMask
                (refMask env flds rc pts (predictand_min_value cfg)) pts).length
              chunks := st.chunks ++ [ch] }, .emitted) ∧
        ch.results = (rc.shortname,
            roundL (refRetained env flds rc pts (predictand_min_value cfg))) ::
          (rest.filterMap (specBaseEntry env flds
              (refMask env flds rc pts (predictand_min_value cfg)) pts) ++
            (derived_computations cfg.computations cfg.predictors.codes).map
              (specDerivedEntry env dflds
                (refMask env flds rc pts (predictand_min_value cfg)) pts)) ∧
        ch.obsVals = (filterByMask
          (refMask env flds rc pts (predictand_min_value cfg)) pts).map Point.val ∧
        ch.latObs = (filterByMask
          (refMask env flds rc pts (predictand_min_value cfg)) pts).map Point.lat ∧
        ch.lonObs = (filterByMask
          (refMask env flds rc pts (predictand_min_value cfg)) pts).map Point.lon ∧
        ch.predictandVals =
          roundL (refRetained env flds rc pts (predictand_min_value cfg))) ∧
    (∀ (ref xs : List ℚ) (mv : ℚ), xs.length = ref.length →
      filterByMask (buildMask (filterByMask (buildMask ref mv) ref) mv)
        (filterByMask (buildMask ref mv) xs) = filterByMask (buildMask ref mv) xs) := by
  constructor
  · intro cfg env st c pts rc rest pcode tl flds dflds hacc hfresh hrange hobs hne hbase
      hinp hpp href hnoref hinpAll hread hretain hder hratio
    simp only [refRetained, refMask, computeOf] at hretain ⊢
    have hr0 := hread rc (List.mem_cons_self rc rest)
    rw [hinp] at hr0
    simp only [List.headD_cons] at hr0
    have hbl : baseLoop cfg env c pts (rc :: rest) initLoop = .ok
        { cache := cacheAfterBase env flds (rc :: rest)
          results := (rc.shortname, roundL (filterByMask
              (buildMask (nearest_gridpoint (env.compute rc.field (flds rc)) pts)
                (predictand_min_value cfg))
              (nearest_gridpoint (env.compute rc.field (flds rc)) pts))) ::
            rest.filterMap (specBaseEntry env flds
              (buildMask (nearest_gridpoint (env.compute rc.field (flds rc)) pts)
                (predictand_min_value cfg)) pts)
          mask := some (buildMask (nearest_gridpoint (env.compute rc.field (flds rc)) pts)
            (predictand_min_value cfg))
          refGeo := some (filterByMask
            (buildMask (nearest_gridpoint (env.compute rc.field (flds rc)) pts)
              (predictand_min_value cfg))
            (nearest_gridpoint (env.compute rc.field (flds rc)) pts)) } := by
      rw [show baseLoop cfg env c pts (rc :: rest) initLoop = baseLoop cfg env c pts rest
          { cache := [(rc.shortname, env.compute rc.field (flds rc))]
            results := [(rc.shortname, roundL (filterByMask
              (buildMask (nearest_gridpoint (env.compute rc.field (flds rc)) pts)
                (predictand_min_value cfg))
              (nearest_gridpoint (env.compute rc.field (flds rc)) pts)))]
            mask := some (buildMask (nearest_gridpoint (env.compute rc.field (flds rc)) pts)
              (predictand_min_value cfg))
            refGeo := some (filterByMask
              (buildMask (nearest_gridpoint (env.compute rc.field (flds rc)) pts)
                (predictand_min_value cfg))
              (nearest_gridpoint (env.compute rc.field (flds rc)) pts)) } from by
        simp only [baseLoop, hinp, hr0]
        simp [hpp, href, hacc, hretain, initLoop]]
      rw [baseLoop_noref cfg env c pts rest _
          (buildMask (nearest_gridpoint (env.compute rc.field (flds rc)) pts)
            (predictand_min_value cfg)) flds hacc rfl hnoref
          (fun x hx => hinpAll x (List.mem_cons_of_mem rc hx))
          (fun x hx => hread x (List.mem_cons_of_mem rc hx))]
      simp [cacheAfterBase, List.reverse_cons, List.map_append, computeOf]
    have hdl := derivedLoop_spec cfg env pts (cacheAfterBase env flds (rc :: rest))
      (buildMask (nearest_gridpoint (env.compute rc.field (flds rc)) pts)
        (predictand_min_value cfg))
      (derived_computations cfg.computations cfg.predictors.codes)
      ((rc.shortname, roundL (filterByMask
          (buildMask (nearest_gridpoint (env.compute rc.field (flds rc)) pts)
            (predictand_min_value cfg))
          (nearest_gridpoint (env.compute rc.field (flds rc)) pts))) ::
        rest.filterMap (specBaseEntry env flds
          (buildMask (nearest_gridpoint (env.compute rc.field (flds rc)) pts)
            (predictand_min_value cfg)) pts))
      dflds hacc hder hratio
    refine ⟨{ baseDate := c.date
              baseTime := c.time
              stepEnd := c.step_s + cfg.predictand.accumulation
              dateOBS := validDate cfg c
              timeOBS := validHour cfg c
              latObs := (filterByMask
                (buildMask (nearest_gridpoint (env.compute rc.field (flds rc)) pts)
                  (predictand_min_value cfg)) pts).map Point.lat
              lonObs := (filterByMask
                (buildMask (nearest_gridpoint (env.compute rc.field (flds rc)) pts)
                  (predictand_min_value cfg)) pts).map Point.lon
              obsVals := (filterByMask
                (buildMask (nearest_gridpoint (env.compute rc.field (flds rc)) pts)
                  (predictand_min_value cfg)) pts).map Point.val
              predictandVals := roundL (filterByMask
                (buildMask (nearest_gridpoint (env.compute rc.field (flds rc)) pts)
                  (predictand_min_value cfg))
                (nearest_gridpoint (env.compute rc.field (flds rc)) pts))
              errors := (if cfg.predictand.error = "FER" then
                  [("FER", roundL (List.zipWith (fun o r => (o - r) / r)
                    ((filterByMask
                      (buildMask (nearest_gridpoint (env.compute rc.field (flds rc)) pts)
                        (predictand_min_value cfg)) pts).map Point.val)
                    (filterByMask
                      (buildMask (nearest_gridpoint (env.compute rc.field (flds rc)) pts)
                        (predictand_min_value cfg))
                      (nearest_gridpoint (env.compute rc.field (flds rc)) pts))))]
                else []) ++
                (if cfg.predictand.error = "FE" then
                  [("FE", roundL (List.zipWith (fun o r => o - r)
                    ((filterByMask
                      (buildMask (nearest_gridpoint (env.compute rc.field (flds rc)) pts)
                        (predictand_min_value cfg)) pts).map Point.val)
                    (filterByMask
                      (buildMask (nearest_gridpoint (env.compute rc.field (flds rc)) pts)
                        (predictand_min_value cfg))
                      (nearest_gridpoint (env.compute rc.field (flds rc)) pts))))]
                else [])
              lstCol := match cfg.computations.find? (fun comp =>
                  comp.field == "LOCAL_SOLAR_TIME") with
                | some lc => if lc.isPostProcessed then
                    [("LST", roundL (compute_local_solar_time
                      ((filterByMask
                        (buildMask (nearest_gridpoint (env.compute rc.field (flds rc)) pts)
                          (predictand_min_value cfg)) pts).map Point.lon)
                      (validHour cfg c : ℚ)))]
                  else []
                | none => []
              results := (rc.shortname, roundL (filterByMask
                  (buildMask (nearest_gridpoint (env.compute rc.field (flds rc)) pts)
                    (predictand_min_value cfg))
                  (nearest_gridpoint (env.compute rc.field (flds rc)) pts))) ::
                (rest.filterMap (specBaseEntry env flds
                    (buildMask (nearest_gridpoint (env.compute rc.field (flds rc)) pts)
                      (predictand_min_value cfg)) pts) ++
                  (derived_computations cfg.computations cfg.predictors.codes).map
                    (specDerivedEntry env dflds
                      (buildMask (nearest_gridpoint (env.compute rc.field (flds rc)) pts)
                        (predictand_min_value cfg)) pts)) },
      ?_, rfl, rfl, rfl, rfl, rfl⟩
    simp [processCase, hfresh, hrange, hobs, hne, hbase, hbl, hdl, hacc]
  · intro ref xs mv hlen
    have hall := filterByMask_buildMask_ge ref mv
    rw [buildMask_all_true _ mv hall]
    apply filterByMask_replicate_true
    rw [filterByMask_length_congr (buildMask ref mv) xs ref hlen]

/-- Witness for claim C1: the concrete case is emitted with exactly one
chunk, and the masking stage is idempotent on a concrete pair of lists. -/
theorem claim_C1_witness :
    (processCase cfgW envW1 st0 caseW).2 = .emitted ∧
    ((processCase cfgW envW1 st0 caseW).1).chunks.length = 1 ∧
    filterByMask (buildMask (filterByMask (buildMask ([1, 0] : List ℚ) 1) [1, 0]) 1)
        (filterByMask (buildMask ([1, 0] : List ℚ) 1) ([7, 9] : List ℚ)) =
      filterByMask (buildMask ([1, 0] : List ℚ) 1) ([7, 9] : List ℚ) := by
  have hdempty : derived_computations cfgW.computations cfgW.predictors.codes = [] := by
    decide
  obtain ⟨ch, h1, _⟩ := claim_C1.1 cfgW envW1 st0 caseW ptsW refCompW [cpCompW] "tp" []
    (fun _ => [fun _ => 0, fun _ => 0]) (fun _ => [])
    rfl rfl (by decide) rfl (by decide) (by decide) rfl rfl (by decide) (by decide)
    (by
      intro comp hcm
      simp only [List.mem_cons, List.not_mem_nil, or_false] at hcm
      rcases hcm with rfl | rfl
      · exact ⟨"tp", [], rfl⟩
      · exact ⟨"cp", [], rfl⟩)
    (by
      intro comp hcm
      simp only [List.mem_cons, List.not_mem_nil, or_false] at hcm
      rcases hcm with rfl | rfl <;> rfl)
    (by
      have hmv : predictand_min_value cfgW = 1 := by
        norm_num [predictand_min_value, cfgW, comps5, cpCompW]
      rw [hmv]
      decide)
    (by
      intro d hd
      rw [hdempty] at hd
      exact absurd hd (List.not_mem_nil d))
    (by
      intro d hd
      rw [hdempty] at hd
      exact absurd hd (List.not_mem_nil d))
  exact ⟨by rw [h1], by rw [h1]; simp [st0], claim_C1.2 [1, 0] [7, 9] 1 rfl⟩

/-- Claim C10: the weighted-average operator on a single-element list
[x] returns x exactly: first and last coincide, the endpoint weighting
is half of x plus half of x, and the interior branch is not taken. -/
theorem claim_C10 : ∀ x : ℚ, compute_weighted_average_field [x] = x := by
  intro x
  simp [compute_weighted_average_field]
  ring

end ECP
